import Mathlib

/-!
# pkg/logger: leveled logging over the standard `log` package

A shallow embedding of `src/pkg/logger/logger.go`.

* The package variable `currentLevel` and everything the package does to the
  outside world live in an explicit `Process` record that every function takes
  and gives back.
* `LogLevel` is Go's `type LogLevel int`, so it is an integer here as well and
  the four constants are the numbers `iota` gives them.
* Library functions that the package calls (`strings.ToLower`, `fmt.Sprintf`,
  `klog.InitFlags`, `klog.SetOutput`) are fields of a `Runtime`; the general
  theorems hold for every runtime, and `goRuntime` is a concrete one on which
  the examples are evaluated.
* Go strings are modelled by `String`, that is, by valid UTF-8 text.
-/

namespace Logger

/-! ## Data model -/

/-- `type LogLevel int`. -/
abbrev LogLevel := Int

/-- `DEBUG LogLevel = iota`. -/
def DEBUG : LogLevel := 0
/-- Second constant of the block. -/
def INFO : LogLevel := 1
/-- Third constant of the block. -/
def WARN : LogLevel := 2
/-- Fourth constant of the block. -/
def ERROR : LogLevel := 3

/-- How a call leaves: by returning to its caller, by a panic that started in
a library it called, or by `os.Exit`. -/
inductive Outcome where
  | returned
  | panicked
  | exited (status : Int)
  deriving DecidableEq, Repr

/-- Library functions called by the package. `α` is the type of the values
passed through `...interface{}`, `κ` the state owned by klog and the default
flag set. -/
structure Runtime (α κ : Type) where
  /-- The case tables of package `unicode`, used by `strings.ToLower` for
  runes above the ASCII range. -/
  unicodeLower : Char → Char
  /-- Function `fmt.Sprintf`. -/
  Sprintf : String → List α → String
  /-- A Go string passed as an `interface{}` argument. -/
  ofString : String → α
  /-- Call `klog.InitFlags(nil)`; `none` when the call panics. -/
  InitFlags : κ → Option κ
  /-- Call `klog.SetOutput(os.Stdout)`. -/
  SetOutput : κ → κ

/-- Process-wide state: the package variable, the messages handed to
`log.Output` so far (oldest first), and the state owned by klog. -/
structure Process (κ : Type) where
  currentLevel : LogLevel
  logged : List String
  klog : κ

/-- State at process start: `var currentLevel LogLevel = INFO`, nothing
written yet. (`init` only sets the flags of the standard logger, which decide
the timestamp and file:line put in front of each message.) -/
def start {κ : Type} (k : κ) : Process κ :=
  { currentLevel := INFO, logged := [], klog := k }

/-- `_ = log.Output(2, message)`: the message goes to the standard logger and
the error it may return is dropped. -/
def logOutput {κ : Type} (message : String) (p : Process κ) : Process κ :=
  { p with logged := p.logged ++ [message] }

/-! ## `strings.ToLower` -/

/-- Lower-casing of one rune: `A`..`Z` are shifted by `'a' - 'A'`, other ASCII
runes are kept, and runes above ASCII go through the Unicode tables. -/
def lowerRune (tbl : Char → Char) (c : Char) : Char :=
  if c.val < 128 then
    (if 'A' ≤ c ∧ c ≤ 'Z' then Char.ofNat (c.toNat + 32) else c)
  else tbl c

/-- `strings.ToLower(s)`. -/
def stringsToLower (tbl : Char → Char) (s : String) : String :=
  String.mk (s.data.map (lowerRune tbl))

/-! ## The package functions -/

/-- The `switch` of `Init` on the lower-cased name. -/
def levelOfName (name : String) : LogLevel :=
  if name = "debug" then DEBUG
  else if name = "info" then INFO
  else if name = "warn" then WARN
  else if name = "error" then ERROR
  else INFO

/-- `func Debug(format string, args ...interface{})`. -/
def Debug {α κ : Type} (rt : Runtime α κ) (format : String) (args : List α)
    (p : Process κ) : Process κ × Outcome :=
  if p.currentLevel ≤ DEBUG then
    (logOutput (rt.Sprintf ("[DEBUG] " ++ format) args) p, Outcome.returned)
  else (p, Outcome.returned)

/-- `func Info(format string, args ...interface{})`. -/
def Info {α κ : Type} (rt : Runtime α κ) (format : String) (args : List α)
    (p : Process κ) : Process κ × Outcome :=
  if p.currentLevel ≤ INFO then
    (logOutput (rt.Sprintf ("[INFO] " ++ format) args) p, Outcome.returned)
  else (p, Outcome.returned)

/-- `func Warn(format string, args ...interface{})`. -/
def Warn {α κ : Type} (rt : Runtime α κ) (format : String) (args : List α)
    (p : Process κ) : Process κ × Outcome :=
  if p.currentLevel ≤ WARN then
    (logOutput (rt.Sprintf ("[WARN] " ++ format) args) p, Outcome.returned)
  else (p, Outcome.returned)

/-- `func Error(format string, args ...interface{})`. -/
def Error {α κ : Type} (rt : Runtime α κ) (format : String) (args : List α)
    (p : Process κ) : Process κ × Outcome :=
  if p.currentLevel ≤ ERROR then
    (logOutput (rt.Sprintf ("[ERROR] " ++ format) args) p, Outcome.returned)
  else (p, Outcome.returned)

/-- `func Fatal(format string, args ...interface{})`: format, write,
`os.Exit(1)`. -/
def Fatal {α κ : Type} (rt : Runtime α κ) (format : String) (args : List α)
    (p : Process κ) : Process κ × Outcome :=
  (logOutput (rt.Sprintf ("[FATAL] " ++ format) args) p, Outcome.exited 1)

/-- `func Init(level string)`: the threshold is assigned first, then klog is
set up, then the confirmation goes through `Info`. When `klog.InitFlags`
panics the rest of the body does not run. -/
def Init {α κ : Type} (rt : Runtime α κ) (level : String) (p : Process κ) :
    Process κ × Outcome :=
  let p1 : Process κ :=
    { p with currentLevel := levelOfName (stringsToLower rt.unicodeLower level) }
  match rt.InitFlags p1.klog with
  | none => (p1, Outcome.panicked)
  | some k =>
    Info rt "日志系统初始化完成，级别: %s" [rt.ofString level]
      { p1 with klog := rt.SetOutput k }

/-! ## A concrete runtime -/

/-- Values passed to the formatting functions in the examples. -/
inductive Value where
  | int (n : Int)
  | str (s : String)
  deriving DecidableEq, Repr

/-- What `reflect.TypeOf(arg).String()` gives. -/
def Value.typeName : Value → String
  | Value.int _ => "int"
  | Value.str _ => "string"

/-- The value under the verb `%v`. -/
def Value.plain : Value → String
  | Value.int n => toString n
  | Value.str s => s

/-- One operand under one verb, for the verbs `%d`, `%s` and `%v` without
flags; a verb that does not fit the operand gives `%!verb(type=value)`. The
other verbs of package `fmt` are outside this fragment and are rendered as a
verb that does not fit. -/
def printArg (v : Value) (verb : Char) : List Char :=
  match v with
  | Value.int n =>
    if verb = 'd' ∨ verb = 'v' then (toString n).data
    else '%' :: '!' :: verb :: ("(int=" ++ toString n ++ ")").data
  | Value.str s =>
    if verb = 's' ∨ verb = 'v' then s.data
    else '%' :: '!' :: verb :: ("(string=" ++ s ++ ")").data

/-- Operands left over when the format is used up: `%!(EXTRA type=value, ...)`. -/
def extraArgs : List Value → List Char
  | [] => []
  | a :: rest =>
    ("%!(EXTRA " ++ ", ".intercalate ((a :: rest).map
      (fun v => v.typeName ++ "=" ++ v.plain)) ++ ")").data

/-- The loop of `doPrintf` on formats whose verbs carry no flags, width,
precision or argument index: text up to a `%` is copied, `%%` writes a percent
sign, a `%` that ends the format writes `%!(NOVERB)`, a verb without an
operand writes `%!verb(MISSING)`. -/
def doPrintf : List Char → List Value → List Char
  | [], args => extraArgs args
  | c :: rest, args =>
    if c = '%' then
      match rest, args with
      | [], _ => "%!(NOVERB)".data ++ extraArgs args
      | verb :: rest2, [] =>
        if verb = '%' then '%' :: doPrintf rest2 []
        else '%' :: '!' :: verb :: ("(MISSING)".data ++ doPrintf rest2 [])
      | verb :: rest2, a :: args2 =>
        if verb = '%' then '%' :: doPrintf rest2 (a :: args2)
        else printArg a verb ++ doPrintf rest2 args2
    else c :: doPrintf rest args

/-- `fmt.Sprintf` on that fragment. -/
def fmtSprintf (format : String) (args : List Value) : String :=
  String.mk (doPrintf format.data args)

/-- What the process holds on behalf of klog: whether klog has defined its
flags on `flag.CommandLine`, and whether `klog.SetOutput(os.Stdout)` has been
called. -/
structure KlogState where
  flagsDefined : Bool
  outputSet : Bool
  deriving DecidableEq, Repr

/-- `klog.InitFlags(nil)` puts klog's flags on `flag.CommandLine`. Package
`flag` panics when a name is put on a flag set that has it already, so the
call panics the second time (klog documents it as callable "repeatedly for
different flag sets, but not twice for the same one"). -/
def klogInitFlags (k : KlogState) : Option KlogState :=
  if k.flagsDefined then none else some { k with flagsDefined := true }

/-- `klog.SetOutput(os.Stdout)`: records the writer. Where klog then writes
also depends on its flag `logtostderr`, which nothing in the package sets. -/
def klogSetOutput (k : KlogState) : KlogState :=
  { k with outputSet := true }

/-- Runes above ASCII whose lower case is an ASCII letter: U+0130 and the
Kelvin sign; the other entries of the tables are left out. -/
def unicodeLowerSample (c : Char) : Char :=
  if c.toNat = 0x130 then 'i' else if c.toNat = 0x212A then 'k' else c

/-- The runtime on which the examples are evaluated. -/
def goRuntime : Runtime Value KlogState :=
  { unicodeLower := unicodeLowerSample
    Sprintf := fmtSprintf
    ofString := Value.str
    InitFlags := klogInitFlags
    SetOutput := klogSetOutput }

/-- A fresh process in which klog has not been touched. -/
def fresh : Process KlogState :=
  start { flagsDefined := false, outputSet := false }


/-! ## Calls and runs -/

/-- The four leveled functions `Debug`, `Info`, `Warn`, `Error`. -/
inductive Emitter where
  | Debug
  | Info
  | Warn
  | Error
  deriving DecidableEq, Repr

/-- The level a function compares the threshold with. -/
def Emitter.level : Emitter → LogLevel
  | Emitter.Debug => DEBUG
  | Emitter.Info => INFO
  | Emitter.Warn => WARN
  | Emitter.Error => ERROR

/-- The bracketed tag a function puts in front of its message. -/
def Emitter.tag : Emitter → String
  | Emitter.Debug => "[DEBUG]"
  | Emitter.Info => "[INFO]"
  | Emitter.Warn => "[WARN]"
  | Emitter.Error => "[ERROR]"

/-- Calling the function named by `e`. -/
def Emitter.call {α κ : Type} (rt : Runtime α κ) (e : Emitter) (format : String)
    (args : List α) (p : Process κ) : Process κ × Outcome :=
  match e with
  | Emitter.Debug => Logger.Debug rt format args p
  | Emitter.Info => Logger.Info rt format args p
  | Emitter.Warn => Logger.Warn rt format args p
  | Emitter.Error => Logger.Error rt format args p

/-- One call of the package other than `Fatal`. -/
inductive Call (α : Type) where
  | Init (level : String)
  | Emit (e : Emitter) (format : String) (args : List α)

/-- Running one call. -/
def Call.run {α κ : Type} (rt : Runtime α κ) (c : Call α) (p : Process κ) :
    Process κ × Outcome :=
  match c with
  | Call.Init level => Logger.Init rt level p
  | Call.Emit e format args => e.call rt format args p

/-- The process after a sequence of calls made one after the other. A call
that panicked leaves the state it had reached, and its caller goes on. -/
def runAll {α κ : Type} (rt : Runtime α κ) (calls : List (Call α))
    (p : Process κ) : Process κ :=
  calls.foldl (fun q c => (c.run rt q).1) p

/-- The argument of the last `Init` of a sequence, when there is one. -/
def lastInit {α : Type} (calls : List (Call α)) : Option String :=
  calls.foldl (fun acc c =>
    match c with
    | Call.Init level => some level
    | Call.Emit _ _ _ => acc) none

/-- What the proofs use of `fmt.Sprintf`: text in front of the first `%` is
copied to the result as it is and does not change how the rest is formatted,
and `%s` applied to a string gives that string. -/
structure SprintfLaws {α κ : Type} (rt : Runtime α κ) : Prop where
  literal_head : ∀ (lit format : String) (args : List α),
    '%' ∉ lit.data → rt.Sprintf (lit ++ format) args = lit ++ rt.Sprintf format args
  string_verb : ∀ s : String, rt.Sprintf "%s" [rt.ofString s] = s

/-! ## Laws of the concrete runtime -/

theorem doPrintf_literal_head (lit rest : List Char) (args : List Value)
    (h : '%' ∉ lit) : doPrintf (lit ++ rest) args = lit ++ doPrintf rest args := by
  induction lit with
  | nil => rfl
  | cons c cs ih =>
    have hc : c ≠ '%' := fun e => h (by simp [e])
    have hcs : '%' ∉ cs := fun e => h (by simp [e])
    rw [List.cons_append, doPrintf.eq_def]
    simp only [if_neg hc, ih hcs, List.cons_append]

theorem fmtSprintf_string_verb (s : String) : fmtSprintf "%s" [Value.str s] = s := by
  show String.mk (doPrintf ['%', 's'] [Value.str s]) = s
  simp [doPrintf, printArg, extraArgs]

theorem goRuntime_sprintfLaws : SprintfLaws goRuntime where
  literal_head := by
    intro lit format args h
    show String.mk (doPrintf (lit ++ format).data args)
      = lit ++ String.mk (doPrintf format.data args)
    rw [String.data_append, doPrintf_literal_head _ _ _ h]
    rfl
  string_verb := fmtSprintf_string_verb

/-! ## Shared lemmas on the package functions -/

theorem Emitter.tag_space_append (e : Emitter) (format : String) :
    e.tag ++ " " ++ format =
      (match e with
        | Emitter.Debug => "[DEBUG] "
        | Emitter.Info => "[INFO] "
        | Emitter.Warn => "[WARN] "
        | Emitter.Error => "[ERROR] ") ++ format := by
  cases e <;> rfl

theorem Emitter.call_eq {α κ : Type} (rt : Runtime α κ) (e : Emitter)
    (format : String) (args : List α) (p : Process κ) :
    e.call rt format args p =
      (if p.currentLevel ≤ e.level then
          logOutput (rt.Sprintf (e.tag ++ " " ++ format) args) p
        else p, Outcome.returned) := by
  rw [Emitter.tag_space_append]
  cases e <;>
    simp only [Emitter.call, Emitter.level, Logger.Debug, Logger.Info, Logger.Warn,
      Logger.Error] <;>
    split <;> rfl

theorem logOutput_logged {κ : Type} (m : String) (p : Process κ) :
    (logOutput m p).logged = p.logged ++ [m] := rfl

theorem logOutput_currentLevel {κ : Type} (m : String) (p : Process κ) :
    (logOutput m p).currentLevel = p.currentLevel := rfl

theorem Emitter.call_currentLevel {α κ : Type} (rt : Runtime α κ) (e : Emitter)
    (format : String) (args : List α) (p : Process κ) :
    (e.call rt format args p).1.currentLevel = p.currentLevel := by
  rw [Emitter.call_eq]
  dsimp only
  split <;> rfl

theorem Init_currentLevel {α κ : Type} (rt : Runtime α κ) (level : String)
    (p : Process κ) :
    (Init rt level p).1.currentLevel
      = levelOfName (stringsToLower rt.unicodeLower level) := by
  unfold Init
  dsimp only
  cases rt.InitFlags p.klog with
  | none => rfl
  | some k =>
    dsimp only
    unfold Info
    split <;> rfl

theorem Init_panicked {α κ : Type} (rt : Runtime α κ) (level : String)
    (p : Process κ) (h : rt.InitFlags p.klog = none) :
    Init rt level p =
      ({ p with currentLevel := levelOfName (stringsToLower rt.unicodeLower level) },
        Outcome.panicked) := by
  unfold Init
  dsimp only
  rw [h]

theorem Init_returned {α κ : Type} (rt : Runtime α κ) (level : String)
    (p : Process κ) (k : κ) (h : rt.InitFlags p.klog = some k) :
    Init rt level p =
      Info rt "日志系统初始化完成，级别: %s" [rt.ofString level]
        { currentLevel := levelOfName (stringsToLower rt.unicodeLower level),
          logged := p.logged, klog := rt.SetOutput k } := by
  unfold Init
  dsimp only
  rw [h]

theorem levelOfName_range (name : String) :
    levelOfName name = DEBUG ∨ levelOfName name = INFO ∨ levelOfName name = WARN
      ∨ levelOfName name = ERROR := by
  unfold levelOfName
  split_ifs <;> simp

theorem Init_outcome {α κ : Type} (rt : Runtime α κ) (level : String)
    (p : Process κ) :
    (Init rt level p).2
      = if (rt.InitFlags p.klog).isSome then Outcome.returned else Outcome.panicked := by
  cases h : rt.InitFlags p.klog with
  | none => rw [Init_panicked rt level p h]; rfl
  | some k =>
    rw [Init_returned rt level p k h]
    unfold Info
    split <;> rfl

/-! ## Filtering -/

/-- C1: a call of the function of level S (`Debug`, `Info`, `Warn`, `Error`)
made while the threshold is T writes a message if and only if S ≥ T, and when
S < T nothing is written. It holds for every value of the threshold, so in
particular for the four named ones. -/
theorem emit_iff_level_ge {α κ : Type} (rt : Runtime α κ) (e : Emitter)
    (format : String) (args : List α) (p : Process κ) :
    ((∃ m, (e.call rt format args p).1.logged = p.logged ++ [m])
        ↔ e.level ≥ p.currentLevel)
      ∧ (e.level < p.currentLevel → (e.call rt format args p).1.logged = p.logged) := by
  rw [Emitter.call_eq]
  by_cases h : p.currentLevel ≤ e.level
  · simp [h, logOutput_logged]
  · have h2 : ¬ e.level ≥ p.currentLevel := h
    simp [h, h2]

/-- At the threshold INFO a call of `Warn` writes and a call of `Debug` does
not; at the threshold ERROR a call of `Error` writes and a call of `Warn` does
not. -/
theorem emit_iff_level_ge_witness :
    ((∃ m, (Emitter.Warn.call goRuntime "x" [] fresh).1.logged = fresh.logged ++ [m])
        ∧ (Emitter.Debug.call goRuntime "x" [] fresh).1.logged = fresh.logged)
      ∧ ((∃ m, (Emitter.Error.call goRuntime "x" []
            { fresh with currentLevel := ERROR }).1.logged = fresh.logged ++ [m])
        ∧ (Emitter.Warn.call goRuntime "x" []
            { fresh with currentLevel := ERROR }).1.logged = fresh.logged) :=
  ⟨⟨(emit_iff_level_ge goRuntime Emitter.Warn "x" [] fresh).1.2 (by decide),
      (emit_iff_level_ge goRuntime Emitter.Debug "x" [] fresh).2 (by decide)⟩,
    ⟨(emit_iff_level_ge goRuntime Emitter.Error "x" []
        { fresh with currentLevel := ERROR }).1.2 (by decide),
      (emit_iff_level_ge goRuntime Emitter.Warn "x" []
        { fresh with currentLevel := ERROR }).2 (by decide)⟩⟩

/-! ## `Init` and the threshold -/

/-- C2: `Init` is case-insensitive on the four names: when the lower-casing of
the argument is "debug", "info", "warn" or "error", the threshold after the
call is DEBUG, INFO, WARN or ERROR, whatever it was before. -/
theorem Init_recognised_name {α κ : Type} (rt : Runtime α κ) (level : String)
    (p : Process κ) :
    (stringsToLower rt.unicodeLower level = "debug"
        → (Init rt level p).1.currentLevel = DEBUG)
      ∧ (stringsToLower rt.unicodeLower level = "info"
        → (Init rt level p).1.currentLevel = INFO)
      ∧ (stringsToLower rt.unicodeLower level = "warn"
        → (Init rt level p).1.currentLevel = WARN)
      ∧ (stringsToLower rt.unicodeLower level = "error"
        → (Init rt level p).1.currentLevel = ERROR) := by
  rw [Init_currentLevel]
  refine ⟨?_, ?_, ?_, ?_⟩ <;> intro h <;> rw [h] <;> rfl

/-- `Init("WARN")`, `Init("warn")` and `Init("WaRn")` set WARN, here from the
thresholds ERROR, DEBUG and INFO. -/
theorem Init_recognised_name_witness :
    (Init goRuntime "WARN" { fresh with currentLevel := ERROR }).1.currentLevel = WARN
      ∧ (Init goRuntime "warn" { fresh with currentLevel := DEBUG }).1.currentLevel = WARN
      ∧ (Init goRuntime "WaRn" fresh).1.currentLevel = WARN :=
  ⟨(Init_recognised_name goRuntime "WARN" _).2.2.1 (by decide),
    (Init_recognised_name goRuntime "warn" _).2.2.1 (by decide),
    (Init_recognised_name goRuntime "WaRn" _).2.2.1 (by decide)⟩

/-- C3: when the lower-casing of the argument is none of "debug", "info",
"warn", "error", `Init` sets the threshold to INFO whatever it was before, and
the name is not reported as an error: the call leaves as `Init("info")` would
in the same state, never through an exit, and it returns whenever
`klog.InitFlags` does. -/
theorem Init_unrecognised_name {α κ : Type} (rt : Runtime α κ) (level : String)
    (p : Process κ)
    (h : stringsToLower rt.unicodeLower level ∉ ["debug", "info", "warn", "error"]) :
    (Init rt level p).1.currentLevel = INFO
      ∧ (Init rt level p).2 = (Init rt "info" p).2
      ∧ (∀ status, (Init rt level p).2 ≠ Outcome.exited status)
      ∧ ((rt.InitFlags p.klog).isSome → (Init rt level p).2 = Outcome.returned) := by
  simp only [List.mem_cons, List.mem_singleton, List.not_mem_nil, or_false, not_or] at h
  obtain ⟨h1, h2, h3, h4⟩ := h
  refine ⟨?_, ?_, ?_, ?_⟩
  · rw [Init_currentLevel]
    simp [levelOfName, h1, h2, h3, h4]
  · rw [Init_outcome, Init_outcome]
  · intro status
    rw [Init_outcome]
    split <;> simp
  · intro hk
    rw [Init_outcome, if_pos hk]

/-- `Init("bogus")` and `Init("")` set INFO and return, here from the
thresholds ERROR and DEBUG. -/
theorem Init_unrecognised_name_witness :
    ((Init goRuntime "bogus" { fresh with currentLevel := ERROR }).1.currentLevel = INFO
        ∧ (Init goRuntime "bogus" { fresh with currentLevel := ERROR }).2
          = Outcome.returned)
      ∧ ((Init goRuntime "" { fresh with currentLevel := DEBUG }).1.currentLevel = INFO
        ∧ (Init goRuntime "" { fresh with currentLevel := DEBUG }).2
          = Outcome.returned) :=
  ⟨⟨(Init_unrecognised_name goRuntime "bogus" _ (by decide)).1,
      (Init_unrecognised_name goRuntime "bogus" _ (by decide)).2.2.2 (by decide)⟩,
    ⟨(Init_unrecognised_name goRuntime "" _ (by decide)).1,
      (Init_unrecognised_name goRuntime "" _ (by decide)).2.2.2 (by decide)⟩⟩

/-! ## `Fatal` -/

/-- C4: at every threshold, for every format and argument list, `Fatal` writes
exactly one message, "[FATAL] " followed by the formatting of the format with
the arguments, and then leaves through `os.Exit(1)`; neither the message nor
the exit status depends on the threshold. -/
theorem Fatal_writes_then_exits {α κ : Type} (rt : Runtime α κ)
    (laws : SprintfLaws rt) (format : String) (args : List α) (p : Process κ) :
    (Fatal rt format args p).1.logged
        = p.logged ++ ["[FATAL] " ++ rt.Sprintf format args]
      ∧ (Fatal rt format args p).2 = Outcome.exited 1
      ∧ ∀ T : LogLevel,
          (Fatal rt format args { p with currentLevel := T }).1.logged
              = (Fatal rt format args p).1.logged
            ∧ (Fatal rt format args { p with currentLevel := T }).2
              = (Fatal rt format args p).2 := by
  refine ⟨?_, rfl, fun T => ⟨rfl, rfl⟩⟩
  show p.logged ++ [rt.Sprintf ("[FATAL] " ++ format) args] = _
  rw [laws.literal_head "[FATAL] " format args (by decide)]

/-- `Fatal("boom %d", 7)` writes "[FATAL] boom 7" and exits with status 1, at
the thresholds INFO and ERROR alike. -/
theorem Fatal_writes_then_exits_witness :
    SprintfLaws goRuntime
      ∧ (Fatal goRuntime "boom %d" [Value.int 7] fresh).1.logged = ["[FATAL] boom 7"]
      ∧ (Fatal goRuntime "boom %d" [Value.int 7] fresh).2 = Outcome.exited 1
      ∧ (Fatal goRuntime "boom %d" [Value.int 7]
          { fresh with currentLevel := ERROR }).1.logged = ["[FATAL] boom 7"] :=
  ⟨goRuntime_sprintfLaws,
    (Fatal_writes_then_exits goRuntime goRuntime_sprintfLaws "boom %d" [Value.int 7]
      fresh).1.trans (by decide),
    (Fatal_writes_then_exits goRuntime goRuntime_sprintfLaws "boom %d" [Value.int 7]
      fresh).2.1,
    (Fatal_writes_then_exits goRuntime goRuntime_sprintfLaws "boom %d" [Value.int 7]
      { fresh with currentLevel := ERROR }).1.trans (by decide)⟩

/-! ## Sequences of calls -/

theorem runAll_snoc {α κ : Type} (rt : Runtime α κ) (calls : List (Call α))
    (c : Call α) (p : Process κ) :
    runAll rt (calls ++ [c]) p = (c.run rt (runAll rt calls p)).1 := by
  simp [runAll, List.foldl_append]

theorem lastInit_snoc {α : Type} (calls : List (Call α)) (c : Call α) :
    lastInit (calls ++ [c]) =
      (match c with
        | Call.Init level => some level
        | Call.Emit _ _ _ => lastInit calls) := by
  simp [lastInit, List.foldl_append]

theorem runAll_currentLevel {α κ : Type} (rt : Runtime α κ) (calls : List (Call α))
    (p : Process κ) :
    (runAll rt calls p).currentLevel =
      (lastInit calls).elim p.currentLevel
        (fun a => levelOfName (stringsToLower rt.unicodeLower a)) := by
  induction calls using List.reverseRecOn with
  | nil => rfl
  | append_singleton cs c ih =>
    rw [runAll_snoc, lastInit_snoc]
    cases c with
    | Init level => exact Init_currentLevel rt level _
    | Emit e format args =>
      exact (Emitter.call_currentLevel rt e format args _).trans ih

/-- C5: only the most recent `Init` governs filtering. From the initial state,
after any finite sequence of calls to `Init`, `Debug`, `Info`, `Warn` and
`Error`, the threshold is the level resolved from the argument of the last
`Init` of the sequence, and the default INFO when there is none; `Init(a)`
followed by `Init(b)` leaves the threshold of `Init(b)` alone; `Debug`,
`Info`, `Warn` and `Error` never change the threshold. -/
theorem threshold_follows_last_Init {α κ : Type} (rt : Runtime α κ)
    (calls : List (Call α)) (k : κ) :
    (∀ a, lastInit calls = some a →
        (runAll rt calls (start k)).currentLevel
          = levelOfName (stringsToLower rt.unicodeLower a))
      ∧ (lastInit calls = none → (runAll rt calls (start k)).currentLevel = INFO)
      ∧ (∀ (a b : String) (p : Process κ),
          (runAll rt [Call.Init a, Call.Init b] p).currentLevel
            = (runAll rt [Call.Init b] p).currentLevel)
      ∧ (∀ (e : Emitter) (format : String) (args : List α) (p : Process κ),
          (e.call rt format args p).1.currentLevel = p.currentLevel) := by
  refine ⟨?_, ?_, ?_, ?_⟩
  · intro a h
    rw [runAll_currentLevel, h]
    rfl
  · intro h
    rw [runAll_currentLevel, h]
    rfl
  · intro a b p
    rw [runAll_currentLevel, runAll_currentLevel]
    rfl
  · exact Emitter.call_currentLevel rt

/-- After `Init("debug")`, a `Debug` call, `Init("ERROR")` and an `Error`
call the threshold is ERROR; after calls of `Warn` and `Debug` only it is still
INFO. -/
theorem threshold_follows_last_Init_witness :
    (runAll goRuntime
        [Call.Init "debug", Call.Emit Emitter.Debug "a" [], Call.Init "ERROR",
          Call.Emit Emitter.Error "b %d" [Value.int 1]] fresh).currentLevel = ERROR
      ∧ (runAll goRuntime
          [Call.Emit Emitter.Warn "a" [], Call.Emit Emitter.Debug "b" []]
          fresh).currentLevel = INFO :=
  ⟨(threshold_follows_last_Init goRuntime
      [Call.Init "debug", Call.Emit Emitter.Debug "a" [], Call.Init "ERROR",
        Call.Emit Emitter.Error "b %d" [Value.int 1]]
      { flagsDefined := false, outputSet := false }).1 "ERROR" (by decide),
    (threshold_follows_last_Init goRuntime
      [Call.Emit Emitter.Warn "a" [], Call.Emit Emitter.Debug "b" []]
      { flagsDefined := false, outputSet := false }).2.1 (by decide)⟩

/-! ## The confirmation message of `Init` -/

theorem levelOfName_le_INFO (name : String) :
    levelOfName name ≤ INFO ↔ name ∉ ["warn", "error"] := by
  unfold levelOfName
  split_ifs with h1 h2 h3 h4
  · subst h1; decide
  · subst h2; decide
  · subst h3; decide
  · subst h4; decide
  · simp [h3, h4, INFO]

/-- C6, counterexample: `Init("error")` in a fresh process returns and has
written nothing; the confirmation was filtered by the threshold ERROR that the
call had just set. -/
theorem Init_error_writes_nothing :
    (Init goRuntime "error" fresh).2 = Outcome.returned
      ∧ (Init goRuntime "error" fresh).1.currentLevel = ERROR
      ∧ (Init goRuntime "error" fresh).1.logged = fresh.logged := by
  decide

/-- C6, amended: a call to `Init` that returns writes exactly one INFO-level
confirmation message when the lower-cased level is neither "warn" nor "error"
(the threshold it has set is DEBUG or INFO), and writes nothing when it is
"warn" or "error": the confirmation goes through `Info` and is filtered by the
threshold the call has just set. -/
theorem Init_confirmation_unless_filtered {α κ : Type} (rt : Runtime α κ)
    (level : String) (p : Process κ)
    (hret : (Init rt level p).2 = Outcome.returned) :
    (stringsToLower rt.unicodeLower level ∉ ["warn", "error"] →
        (Init rt level p).1.logged
          = p.logged ++ [rt.Sprintf ("[INFO] " ++ "日志系统初始化完成，级别: %s")
              [rt.ofString level]])
      ∧ (stringsToLower rt.unicodeLower level ∈ ["warn", "error"] →
        (Init rt level p).1.logged = p.logged) := by
  cases hk : rt.InitFlags p.klog with
  | none =>
    rw [Init_panicked rt level p hk] at hret
    exact Outcome.noConfusion hret
  | some k =>
    rw [Init_returned rt level p k hk]
    unfold Info
    dsimp only
    constructor
    · intro h
      rw [if_pos ((levelOfName_le_INFO _).2 h)]
      rfl
    · intro h
      rw [if_neg (fun hle => (levelOfName_le_INFO _).1 hle h)]

/-- `Init("DEBUG")` and `Init("bogus")` in a fresh process write one
confirmation each; `Init("Warn")` writes none. -/
theorem Init_confirmation_unless_filtered_witness :
    (Init goRuntime "DEBUG" fresh).1.logged
        = ["[INFO] 日志系统初始化完成，级别: DEBUG"]
      ∧ (Init goRuntime "bogus" fresh).1.logged
        = ["[INFO] 日志系统初始化完成，级别: bogus"]
      ∧ (Init goRuntime "Warn" fresh).1.logged = [] :=
  ⟨((Init_confirmation_unless_filtered goRuntime "DEBUG" fresh (by decide)).1
      (by decide)).trans (by decide),
    ((Init_confirmation_unless_filtered goRuntime "bogus" fresh (by decide)).1
      (by decide)).trans (by decide),
    (Init_confirmation_unless_filtered goRuntime "Warn" fresh (by decide)).2
      (by decide)⟩

theorem confirmation_text {α κ : Type} (rt : Runtime α κ) (laws : SprintfLaws rt)
    (level : String) :
    rt.Sprintf ("[INFO] " ++ "日志系统初始化完成，级别: %s") [rt.ofString level]
      = "[INFO] 日志系统初始化完成，级别: " ++ level := by
  have e : "[INFO] " ++ "日志系统初始化完成，级别: %s"
      = "[INFO] 日志系统初始化完成，级别: " ++ "%s" := by decide
  rw [e, laws.literal_head _ _ _ (by decide), laws.string_verb]

theorem Init_logged_cases {α κ : Type} (rt : Runtime α κ) (level : String)
    (p : Process κ) :
    (Init rt level p).1.logged = p.logged
      ∨ (Init rt level p).1.logged
        = p.logged ++ [rt.Sprintf ("[INFO] " ++ "日志系统初始化完成，级别: %s")
            [rt.ofString level]] := by
  cases hk : rt.InitFlags p.klog with
  | none => rw [Init_panicked rt level p hk]; exact Or.inl rfl
  | some k =>
    rw [Init_returned rt level p k hk]
    unfold Info
    split
    · exact Or.inr rfl
    · exact Or.inl rfl

/-- C9: the confirmation of `Init` reports the level name as the caller passed
it: whenever `Init(s)` writes a message, the message is
"[INFO] 日志系统初始化完成，级别: " followed by s unchanged; and it writes that
message whenever it returns and the lower-casing of s is neither "warn" nor
"error", so also for a name that is not recognised, whose threshold is INFO. -/
theorem Init_confirmation_text {α κ : Type} (rt : Runtime α κ)
    (laws : SprintfLaws rt) (level : String) (p : Process κ) :
    (∀ m, (Init rt level p).1.logged = p.logged ++ [m] →
        m = "[INFO] 日志系统初始化完成，级别: " ++ level)
      ∧ ((Init rt level p).2 = Outcome.returned →
          stringsToLower rt.unicodeLower level ∉ ["warn", "error"] →
          (Init rt level p).1.logged
            = p.logged ++ ["[INFO] 日志系统初始化完成，级别: " ++ level])
      ∧ (stringsToLower rt.unicodeLower level ∉ ["debug", "info", "warn", "error"] →
          (Init rt level p).1.currentLevel = INFO) := by
  refine ⟨?_, ?_, ?_⟩
  · intro m hm
    rcases Init_logged_cases rt level p with h | h
    · rw [h] at hm
      simp at hm
    · rw [h, confirmation_text rt laws] at hm
      simpa using hm.symm
  · intro hret hlow
    cases hk : rt.InitFlags p.klog with
    | none =>
      rw [Init_panicked rt level p hk] at hret
      exact Outcome.noConfusion hret
    | some k =>
      rw [Init_returned rt level p k hk]
      unfold Info
      dsimp only
      rw [if_pos ((levelOfName_le_INFO _).2 hlow)]
      show p.logged ++ [_] = _
      rw [confirmation_text rt laws]
  · intro h
    simp only [List.mem_cons, List.mem_singleton, List.not_mem_nil, or_false,
      not_or] at h
    rw [Init_currentLevel]
    simp [levelOfName, h.1, h.2.1, h.2.2.1, h.2.2.2]

/-- `Init("bogus")` sets the threshold INFO and writes a confirmation that ends
in "bogus"; `Init("DeBuG")` reports "DeBuG", not "debug". -/
theorem Init_confirmation_text_witness :
    SprintfLaws goRuntime
      ∧ (Init goRuntime "bogus" fresh).1.currentLevel = INFO
      ∧ (Init goRuntime "bogus" fresh).1.logged
        = fresh.logged ++ ["[INFO] 日志系统初始化完成，级别: " ++ "bogus"]
      ∧ (Init goRuntime "DeBuG" fresh).1.logged
        = fresh.logged ++ ["[INFO] 日志系统初始化完成，级别: " ++ "DeBuG"] :=
  ⟨goRuntime_sprintfLaws,
    (Init_confirmation_text goRuntime goRuntime_sprintfLaws "bogus" fresh).2.2
      (by decide),
    (Init_confirmation_text goRuntime goRuntime_sprintfLaws "bogus" fresh).2.1
      (by decide) (by decide),
    (Init_confirmation_text goRuntime goRuntime_sprintfLaws "DeBuG" fresh).2.1
      (by decide) (by decide)⟩

/-! ## Message format -/

theorem stringsToLower_ERROR (tbl : Char → Char) : stringsToLower tbl "ERROR" = "error" := by
  simp [stringsToLower, lowerRune]

theorem Emitter.tag_no_percent (e : Emitter) : '%' ∉ (e.tag ++ " ").data := by
  cases e <;> decide

/-- C7: for every level, format and argument list, a call that is not
filtered writes exactly one message: the bracketed tag of the level, one
space, then the formatting of the format with the arguments. In particular,
after `Init("ERROR")`, `Debug`, `Info` and `Warn` write nothing and `Error`
writes exactly one message, "[ERROR] " followed by the formatted message. -/
theorem emit_message_format {α κ : Type} (rt : Runtime α κ)
    (laws : SprintfLaws rt) (format : String) (args : List α) (p : Process κ) :
    (∀ e : Emitter, e.level ≥ p.currentLevel →
        (e.call rt format args p).1.logged
          = p.logged ++ [e.tag ++ " " ++ rt.Sprintf format args])
      ∧ ((Debug rt format args (Init rt "ERROR" p).1).1.logged
            = (Init rt "ERROR" p).1.logged
        ∧ (Info rt format args (Init rt "ERROR" p).1).1.logged
            = (Init rt "ERROR" p).1.logged
        ∧ (Warn rt format args (Init rt "ERROR" p).1).1.logged
            = (Init rt "ERROR" p).1.logged
        ∧ (Error rt format args (Init rt "ERROR" p).1).1.logged
            = (Init rt "ERROR" p).1.logged ++ ["[ERROR] " ++ rt.Sprintf format args]) := by
  have hlvl : (Init rt "ERROR" p).1.currentLevel = ERROR := by
    rw [Init_currentLevel, stringsToLower_ERROR]
    rfl
  refine ⟨?_, ?_, ?_, ?_, ?_⟩
  · intro e he
    rw [Emitter.call_eq, if_pos he, logOutput_logged,
      laws.literal_head _ _ _ e.tag_no_percent]
  · unfold Debug
    rw [hlvl, if_neg (by decide)]
  · unfold Info
    rw [hlvl, if_neg (by decide)]
  · unfold Warn
    rw [hlvl, if_neg (by decide)]
  · unfold Error
    rw [hlvl, if_pos (by decide), logOutput_logged,
      laws.literal_head _ _ _ (by decide)]

/-- After `Init("ERROR")` in a fresh process nothing has been written, a call
of `Warn` writes nothing, and `Error("disk %s at %d%%", "sda", 97)` writes the
one message "[ERROR] disk sda at 97%". -/
theorem emit_message_format_witness :
    SprintfLaws goRuntime
      ∧ (Warn goRuntime "disk %s at %d%%" [Value.str "sda", Value.int 97]
          (Init goRuntime "ERROR" fresh).1).1.logged = []
      ∧ (Error goRuntime "disk %s at %d%%" [Value.str "sda", Value.int 97]
          (Init goRuntime "ERROR" fresh).1).1.logged = ["[ERROR] disk sda at 97%"] :=
  ⟨goRuntime_sprintfLaws,
    (emit_message_format goRuntime goRuntime_sprintfLaws "disk %s at %d%%"
      [Value.str "sda", Value.int 97] fresh).2.2.2.1.trans (by decide),
    (emit_message_format goRuntime goRuntime_sprintfLaws "disk %s at %d%%"
      [Value.str "sda", Value.int 97] fresh).2.2.2.2.trans (by decide)⟩

/-! ## How calls leave -/

/-- C8: the code at the failing input. The first `Init` of a process returns
and writes its confirmation. A second `Init` in the same process does not
return: the threshold is assigned, then `klog.InitFlags(nil)` puts klog's
flags on the default flag set a second time and panics, so nothing more is
written; the panic, when no caller recovers it, ends the process. -/
theorem Init_twice_panics :
    (Init goRuntime "info" fresh).2 = Outcome.returned
      ∧ (Init goRuntime "info" fresh).1.logged
        = ["[INFO] 日志系统初始化完成，级别: info"]
      ∧ (Init goRuntime "info" (Init goRuntime "info" fresh).1).2 = Outcome.panicked
      ∧ (Init goRuntime "info" (Init goRuntime "info" fresh).1).2 ≠ Outcome.returned
      ∧ (Init goRuntime "info" (Init goRuntime "info" fresh).1).1.currentLevel = INFO
      ∧ (Init goRuntime "info" (Init goRuntime "info" fresh).1).1.logged
        = (Init goRuntime "info" fresh).1.logged := by
  decide

/-! ## Reachable states -/

/-- C10: in every state reached from the initial state by calls to `Init`,
`Debug`, `Info`, `Warn` and `Error`, the threshold is one of DEBUG, INFO,
WARN, ERROR, and therefore a call of `Error` is never filtered: it writes its
message in every such state. -/
theorem Error_never_filtered {α κ : Type} (rt : Runtime α κ)
    (calls : List (Call α)) (k : κ) (format : String) (args : List α) :
    (runAll rt calls (start k)).currentLevel ∈ [DEBUG, INFO, WARN, ERROR]
      ∧ (Error rt format args (runAll rt calls (start k))).1.logged
        = (runAll rt calls (start k)).logged
            ++ [rt.Sprintf ("[ERROR] " ++ format) args] := by
  have hmem : (runAll rt calls (start k)).currentLevel ∈ [DEBUG, INFO, WARN, ERROR] := by
    rw [runAll_currentLevel]
    cases lastInit calls with
    | none => simp [start]
    | some a =>
      have h := levelOfName_range (stringsToLower rt.unicodeLower a)
      simpa using h
  refine ⟨hmem, ?_⟩
  have hle : (runAll rt calls (start k)).currentLevel ≤ ERROR := by
    simp only [List.mem_cons, List.mem_singleton, List.not_mem_nil, or_false] at hmem
    rcases hmem with h | h | h | h <;> rw [h] <;> decide
  unfold Error
  rw [if_pos hle]
  rfl

/-- After `Init("error")`, a `Warn` call and `Init("nonsense")` the threshold
is INFO; after `Init("error")` and a `Warn` call nothing has been written, and
a call of `Error` then writes "[ERROR] e". -/
theorem Error_never_filtered_witness :
    (runAll goRuntime
        [Call.Init "error", Call.Emit Emitter.Warn "w" [], Call.Init "nonsense"]
        fresh).currentLevel = INFO
      ∧ (Error goRuntime "e" []
          (runAll goRuntime [Call.Init "error", Call.Emit Emitter.Warn "w" []]
            fresh)).1.logged = ["[ERROR] e"] :=
  ⟨by decide,
    (Error_never_filtered goRuntime
      [Call.Init "error", Call.Emit Emitter.Warn "w" []]
      { flagsDefined := false, outputSet := false } "e" []).2.trans (by decide)⟩

end Logger
